import Mathlib

/-!
Verification of the page-object generator pipeline (TypeScript sources under
src/).  The definitions below are shallow embeddings of the identifier
utilities (utils.ts), the element classifier, selector synthesizer and
property-name synthesizer (PageObjectGenerator.ts), the configuration
validator, and the filter chain (filters.ts).  JavaScript machine details
that matter are modelled explicitly: string truthiness (the empty string is
falsy), number truthiness (0 is falsy), and decimal rendering of numbers.
-/

set_option maxHeartbeats 1000000

/-! ## Character utilities (ASCII ranges, JS regex classes) -/

def isAsciiUpper (c : Char) : Bool := 65 ≤ c.toNat && c.toNat ≤ 90

def isAsciiLower (c : Char) : Bool := 97 ≤ c.toNat && c.toNat ≤ 122

def isAsciiDigitChar (c : Char) : Bool := 48 ≤ c.toNat && c.toNat ≤ 57

def isAsciiLetter (c : Char) : Bool := isAsciiLower c || isAsciiUpper c

/-- JS regex class [a-zA-Z0-9]. -/
def isAsciiAlphanum (c : Char) : Bool := isAsciiLetter c || isAsciiDigitChar c

/-- JS regex class \w, that is [A-Za-z0-9_]. -/
def isWordChar (c : Char) : Bool := isAsciiAlphanum c || c == '_'

/-- JS regex class \s restricted to the ASCII whitespace characters. -/
def jsIsSpace (c : Char) : Bool :=
  c == ' ' || c == '\t' || c == '\n' || c == '\r' || c == Char.ofNat 11 || c == Char.ofNat 12

/-- One character of String.prototype.toLowerCase, ASCII fragment. -/
def jsToLowerChar (c : Char) : Char :=
  if isAsciiUpper c then Char.ofNat (c.toNat + 32) else c

/-- One character of String.prototype.toUpperCase, ASCII fragment. -/
def jsToUpperChar (c : Char) : Char :=
  if isAsciiLower c then Char.ofNat (c.toNat - 32) else c

/-- String.prototype.toLowerCase on the ASCII fragment. -/
def jsToLower (s : String) : String := ⟨s.data.map jsToLowerChar⟩

/-- Needle is a leading segment of the haystack (character lists). -/
def leadsList : List Char → List Char → Bool
  | [], _ => true
  | _ :: _, [] => false
  | a :: as, b :: bs => a == b && leadsList as bs

/-- Needle occurs contiguously within the haystack (character lists). -/
def occursWithin (needle : List Char) : List Char → Bool
  | [] => leadsList needle []
  | c :: rest => leadsList needle (c :: rest) || occursWithin needle rest

/-- String.prototype.includes. -/
def strIncludes (s sub : String) : Bool := occursWithin sub.data s.data

/-- String.prototype.startsWith. -/
def strStartsWith (s pre : String) : Bool := leadsList pre.data s.data

/-! ## Decimal rendering of a natural number (JS template `${n}`).
Fuel-structured so that the kernel can evaluate it; fuel n + 1 always
suffices for the argument n. -/

def digitChar (d : Nat) : Char := Char.ofNat (48 + d)

def natDigits : Nat → Nat → List Nat
  | 0, _ => []
  | fuel + 1, n => if n < 10 then [n] else natDigits fuel (n / 10) ++ [n % 10]

def natRepr (n : Nat) : String := ⟨(natDigits (n + 1) n).map digitChar⟩

/-! ## utils.ts -/

/-- utils.ts escapeString: input.replace srcquote to backslash-quote. -/
def escapeChar (c : Char) : List Char :=
  if c == '\'' then ['\\', '\''] else [c]

def escapeString (s : String) : String :=
  ⟨s.data.foldr (fun c acc => escapeChar c ++ acc) []⟩

/-- utils.ts sanitizeKey: strip every character outside [a-zA-Z0-9], then
lower-case. -/
def sanitizeKey (s : String) : String :=
  ⟨(s.data.filter isAsciiAlphanum).map jsToLowerChar⟩

/-- Collapse every run of whitespace into a single space
(the replace of \s+ by one space in utils.ts toCamelCase). -/
def collapseSpaces (l : List Char) : List Char :=
  l.foldr
    (fun c acc =>
      if jsIsSpace c then
        match acc with
        | ' ' :: _ => acc
        | _ => ' ' :: acc
      else c :: acc) []

/-- String.prototype.trim (ASCII whitespace). -/
def trimSpaces (l : List Char) : List Char :=
  ((l.dropWhile jsIsSpace).reverse.dropWhile jsIsSpace).reverse

/-- String.prototype.split with separator a single space. -/
def splitOnSpaceChar (l : List Char) : List (List Char) :=
  l.foldr
    (fun c acc =>
      match acc with
      | [] => if c == ' ' then [[], []] else [[c]]
      | w :: ws => if c == ' ' then [] :: w :: ws else (c :: w) :: ws)
    [[]]

/-- Capitalise the first character, lower-case the rest (the map body of
utils.ts toCamelCase for word positions after the first). -/
def capitalizeWord : List Char → List Char
  | [] => []
  | c :: rest => jsToUpperChar c :: rest.map jsToLowerChar

/-- Join the split words: first word lower-cased, later words capitalised. -/
def camelJoin : List (List Char) → List Char
  | [] => []
  | w :: rest => w.map jsToLowerChar ++ (rest.map capitalizeWord).flatten

/-- Drop one leading character that is not [a-zA-Z_$]
(the final replace in utils.ts toCamelCase). -/
def stripBadStart : List Char → List Char
  | [] => []
  | c :: rest => if isAsciiLetter c || c == '_' || c == '$' then c :: rest else rest

/-- utils.ts toCamelCase. -/
def toCamelCase (input : String) : String :=
  if input = "" then "element"
  else
    let step1 := input.data.map (fun c => if !isWordChar c && !jsIsSpace c then ' ' else c)
    let words := splitOnSpaceChar (trimSpaces (collapseSpaces step1))
    let joined := camelJoin words
    let filtered := joined.filter isWordChar
    let noLeadDigits := filtered.dropWhile isAsciiDigitChar
    let final := stripBadStart noLeadDigits
    if final = [] then "element" else ⟨final⟩

/-! ## Data model (types.ts) -/

structure ElementSelector where
  selector : String
  key : String
deriving DecidableEq, Repr

/-- types.ts AccessibleElement.  The TypeScript fields with hyphenated
keys are rendered ariaLabel and ariaLabelledby.  The attributes record is
the ordered attribute snapshot, as an association list. -/
structure AccessibleElement where
  name : String
  type : String
  selector : ElementSelector
  tagName : String
  textContent : String
  id : String
  className : String
  role : String
  nameAttr : String
  placeholder : String
  ariaLabel : String
  ariaLabelledby : String
  attributes : List (String × String)
  propertyName : String
  key : String
deriving DecidableEq, Repr

/-- Read one attribute from the snapshot (absent key gives none, mirroring
an undefined JS record access). -/
def attrGet (attrs : List (String × String)) (k : String) : Option String :=
  (attrs.find? (fun p => p.1 = k)).map (fun p => p.2)

/-- JS truthiness of an optional string: undefined and the empty string
are falsy. -/
def optTruthy : Option String → Bool
  | some s => s ≠ ""
  | none => false

/-- A convenience constructor used only by concrete test inputs in the
theorems below: every field empty except the property name (and the name,
which the orchestrator sets equal to the raw property name). -/
def mkElem (pn : String) : AccessibleElement :=
  { name := pn, type := "", selector := ⟨"", ""⟩, tagName := "", textContent := "",
    id := "", className := "", role := "", nameAttr := "", placeholder := "",
    ariaLabel := "", ariaLabelledby := "", attributes := [], propertyName := pn,
    key := "" }

/-! ## utils.ts uniquifyPropertyNames.  The source keeps a Set of assigned
names and, on collision, appends counters 1, 2, ... until the name is
unused.  The while loop is modelled with explicit fuel; used.length + 1
attempts always suffice (proved below). -/

def findFreshGo (used : List String) (base : String) : Nat → Nat → String
  | 0, k => base ++ natRepr k
  | fuel + 1, k =>
    if base ++ natRepr k ∈ used then findFreshGo used base fuel (k + 1)
    else base ++ natRepr k

def nextUniqueName (used : List String) (base : String) : String :=
  if base ∈ used then findFreshGo used base (used.length + 1) 1 else base

def uniquifyGo (used : List String) : List AccessibleElement → List AccessibleElement
  | [] => []
  | el :: rest =>
    let newName := nextUniqueName used el.propertyName
    { el with propertyName := newName } :: uniquifyGo (newName :: used) rest

def uniquifyPropertyNames (l : List AccessibleElement) : List AccessibleElement :=
  uniquifyGo [] l

/-! ## constants.ts -/

/-- constants.ts DEFAULT_ELEMENT_TYPES: the fixed element-type table
mapping each semantic type to its selector patterns. -/
def DEFAULT_ELEMENT_TYPES : List (String × List String) :=
  [ ("button", ["button", "input[type=\"button\"]", "input[type=\"submit\"]",
      "input[type=\"reset\"]", "[role=\"button\"]"]),
    ("link", ["a", "[role=\"link\"]"]),
    ("input", ["input[type=\"text\"]", "input[type=\"email\"]", "input[type=\"password\"]",
      "input[type=\"number\"]", "input[type=\"tel\"]", "input[type=\"url\"]",
      "input[type=\"search\"]"]),
    ("checkbox", ["input[type=\"checkbox\"]", "[role=\"checkbox\"]"]),
    ("radio", ["input[type=\"radio\"]", "[role=\"radio\"]"]),
    ("select", ["select", "[role=\"combobox\"]", "[role=\"listbox\"]"]),
    ("textarea", ["textarea"]),
    ("image", ["img", "[role=\"img\"]"]),
    ("heading", ["h1", "h2", "h3", "h4", "h5", "h6", "[role=\"heading\"]"]),
    ("label", ["label", "[role=\"label\"]"]),
    ("alert", ["[role=\"alert\"]", "[role=\"status\"]", "[role=\"alertdialog\"]"]),
    ("dialog", ["[role=\"dialog\"]", "[role=\"modal\"]"]),
    ("tab", ["[role=\"tab\"]", "[role=\"tabpanel\"]"]),
    ("navigation", ["nav", "[role=\"navigation\"]"]),
    ("main", ["main", "[role=\"main\"]"]),
    ("aside", ["aside", "[role=\"complementary\"]"]),
    ("header", ["header", "[role=\"banner\"]"]),
    ("footer", ["footer", "[role=\"contentinfo\"]"]),
    ("section", ["section", "article"]),
    ("text", ["p", "span", "div"]) ]

/-- The pattern list recorded in DEFAULT_ELEMENT_TYPES under a type. -/
def elementTypePatterns (t : String) : List String :=
  ((DEFAULT_ELEMENT_TYPES.find? (fun p => p.1 = t)).map (fun p => p.2)).getD []

/-! ## PageObjectGenerator.getElementType -/

/-- PageObjectGenerator.getElementType: classify a tag, role and type
attribute into one semantic element type. -/
def getElementType (tagName role type_ : String) : String :=
  let tag := jsToLower tagName
  let roleNormalized := jsToLower role
  let typeNormalized := jsToLower type_
  if tag = "button" ∨ roleNormalized = "button" ∨
      (tag = "input" ∧ typeNormalized ∈ ["button", "submit", "reset"]) then "button"
  else if tag = "a" ∨ roleNormalized = "link" then "link"
  else if tag = "input" then
    if typeNormalized ∈ ["checkbox", "radio", "file", "range", "color", "date", "time",
        "datetime-local", "month", "week", "password", "email", "tel", "url"] then
      typeNormalized
    else "input"
  else if tag = "select" ∨ roleNormalized = "combobox" then "select"
  else if tag = "textarea" then "textarea"
  else if tag = "img" ∨ roleNormalized = "img" then "image"
  else if tag ∈ ["h1", "h2", "h3", "h4", "h5", "h6"] then "heading"
  else if tag = "label" ∨ roleNormalized = "link" then "label"
  else if (tag = "div" ∨ tag = "span") ∧ roleNormalized ∈ ["alert", "status", "alertdialog"] then
    "alert"
  else if (tag = "div" ∨ tag = "span") ∧ roleNormalized ∈ ["dialog", "modal"] then "dialog"
  else if (tag = "div" ∨ tag = "span") ∧ roleNormalized = "tab" then "tab"
  else if tag ∈ ["p", "span", "div", "section", "article", "main", "aside", "header",
      "footer", "nav"] then "text"
  else if tag = "" then "generic"
  else tag

/-! ## PageObjectGenerator.validateConfig -/

/-- The two fields of types.ts PageObjectConfig that validateConfig reads;
the remaining optional fields do not influence validation. -/
structure PageObjectConfig where
  maxTextLength : Option Int := none
  selectorPriorities : Option (List String) := none
deriving DecidableEq, Repr

structure ValidationResult where
  type : String
  message : String
  suggestion : Option String := none
deriving DecidableEq, Repr

/-- PageObjectGenerator.validateConfig.  The guards follow the JS source:
a numeric field participates only when truthy (undefined and 0 are falsy),
an array field participates whenever it is present (an empty array is
truthy in JS). -/
def validateConfig (config : PageObjectConfig) : List ValidationResult :=
  let r1 : List ValidationResult :=
    match config.maxTextLength with
    | some n =>
      if n ≠ 0 ∧ n < 1 then
        [⟨"error", "maxTextLength must be at least 1",
          some "Set maxTextLength to a value >= 1"⟩]
      else []
    | none => []
  let r2 : List ValidationResult :=
    match config.selectorPriorities with
    | some l =>
      if l.length = 0 then
        [⟨"error", "selectorPriorities cannot be empty",
          some "Provide at least one selector priority or use defaults"⟩]
      else []
    | none => []
  r1 ++ r2

/-! ## filters.ts -/

/-- The keep predicate of HiddenElementFilter.filter, mirroring the source
condition blocks in order; false means the element is dropped. -/
def hiddenElementKeep (element : AccessibleElement) : Bool :=
  let attributes := element.attributes
  let styleHas (sub : String) : Bool :=
    match attrGet attributes "style" with
    | some st => strIncludes st sub
    | none => false
  if attrGet attributes "hidden" == some "" ||
      attrGet attributes "aria-hidden" == some "true" ||
      styleHas "display: none" || styleHas "visibility: hidden" || styleHas "opacity: 0" then
    false
  else if strIncludes element.className "hidden" ||
      strIncludes element.className "invisible" ||
      strIncludes element.className "sr-only" ||
      strIncludes element.className "visually-hidden" then
    false
  else if attrGet attributes "width" == some "0" || attrGet attributes "height" == some "0" ||
      styleHas "width: 0" || styleHas "height: 0" then
    false
  else if element.tagName == "script" || element.tagName == "style" ||
      element.tagName == "noscript" || element.tagName == "meta" ||
      element.tagName == "link" || element.tagName == "title" ||
      element.tagName == "head" then
    false
  else true

/-- filters.ts HiddenElementFilter.filter. -/
def hiddenElementFilter (elements : List AccessibleElement) : List AccessibleElement :=
  elements.filter hiddenElementKeep

/-- utils.ts / filters.ts groupBy: fold the elements into an
insertion-ordered record of groups (the selector-expression keys produced
here are never integer-like, so JS object iteration order is insertion
order). -/
def groupByUpd (acc : List (String × List AccessibleElement)) (k : String)
    (el : AccessibleElement) : List (String × List AccessibleElement) :=
  if (acc.find? (fun p => p.1 = k)).isSome then
    acc.map (fun p => if p.1 = k then (p.1, p.2 ++ [el]) else p)
  else acc ++ [(k, [el])]

def groupBySelector (l : List AccessibleElement) : List (String × List AccessibleElement) :=
  l.foldl (fun acc el => groupByUpd acc el.selector.selector el) []

/-- filters.ts DuplicateElementFilter.filter: Object.values of the groups,
first member of each group, discarding absent heads. -/
def duplicateElementFilter (elements : List AccessibleElement) : List AccessibleElement :=
  ((groupBySelector elements).map (fun p => p.2)).filterMap (fun g => g.head?)

/-- filters.ts VisibilityFilter.filterAsync.  The driver interaction is
abstracted into an oracle: for each element the locator re-resolution and
visibility query either raise (Except.error) or report visibility.  The
source pushes the element when the query reports visible and also in the
catch arm. -/
def visibilityFilterAsync (enabled : Bool) (elements : List AccessibleElement)
    (isVisible : AccessibleElement → Except Unit Bool) : List AccessibleElement :=
  if !enabled then elements
  else
    elements.foldl
      (fun acc el =>
        match isVisible el with
        | .ok true => acc ++ [el]
        | .ok false => acc
        | .error _ => acc ++ [el]) []

/-! ## PageObjectGenerator selector and name synthesis -/

/-- The fixed social-domain table of generateHrefName, in source order. -/
def socialDomains : List (String × String) :=
  [("instagram.com", "instagram"), ("linkedin.com", "linkedin"),
   ("facebook.com", "facebook"), ("twitter.com", "twitter"), ("x.com", "twitter"),
   ("youtube.com", "youtube"), ("tiktok.com", "tiktok")]

/-- Strip a leading http:// or https:// scheme. -/
def stripScheme (href : String) : String :=
  if strStartsWith href "https://" then href.drop 8
  else if strStartsWith href "http://" then href.drop 7
  else href

/-- PageObjectGenerator.generateHrefName.  The WHATWG URL parse of the
source (hostname of new URL, with www. stripped, first dot-separated
label) is modelled by direct host extraction, which agrees with both the
try arm and its catch fallback on the inputs the pipeline produces. -/
def generateHrefName (href : String) : String :=
  match socialDomains.find? (fun p => strIncludes href p.1) with
  | some p => p.2
  | none =>
    if strStartsWith href "mailto:" then "emailLink"
    else if strStartsWith href "tel:" then "phoneLink"
    else
      let stripped := stripScheme href
      let noWww := if strStartsWith stripped "www." then stripped.drop 4 else stripped
      let hostPart := ((noWww.splitOn "/").headD "")
      let label := ((hostPart.splitOn ".").headD "")
      if label ≠ "" then label ++ "Link" else "link"

/-- PageObjectGenerator.generateHrefKey. -/
def generateHrefKey (href : String) (index : Nat) : String :=
  let name := generateHrefName href
  if name = "link" then "link_" ++ natRepr index else name

/-- PageObjectGenerator.generateSelector, the selector-synthesis cascade.
The element handle parameter of the source is unused there and omitted. -/
def generateSelector (tagName role textContent ariaLabel placeholder : String)
    (attributes : List (String × String)) (index : Nat) : ElementSelector :=
  let testId := attrGet attributes "data-testid"
  let id := attrGet attributes "id"
  let name := attrGet attributes "name"
  let type_ := attrGet attributes "type"
  if role ≠ "" ∧ (ariaLabel ≠ "" ∨ textContent ≠ "") then
    let accessibleName := if ariaLabel ≠ "" then ariaLabel else textContent
    ⟨"getByRole('" ++ role ++ "', \x7b name: '" ++ escapeString accessibleName ++ "' \x7d)",
      sanitizeKey accessibleName⟩
  else if tagName ∈ ["input", "select", "textarea"] ∧ ariaLabel ≠ "" then
    ⟨"getByLabel('" ++ escapeString ariaLabel ++ "')", sanitizeKey ariaLabel⟩
  else if tagName ∈ ["input", "select", "textarea"] ∧ placeholder ≠ "" then
    ⟨"getByPlaceholder('" ++ escapeString placeholder ++ "')", sanitizeKey placeholder⟩
  else if tagName = "button" ∨
      (tagName = "input" ∧ optTruthy type_ ∧ type_.getD "" ∈ ["button", "submit", "reset"]) then
    if textContent ≠ "" then
      ⟨"getByRole('button', \x7b name: '" ++ escapeString textContent ++ "' \x7d)",
        sanitizeKey textContent⟩
    else ⟨"getByRole('button')", "button_" ++ natRepr index⟩
  else if tagName = "a" then
    if textContent ≠ "" then
      ⟨"getByRole('link', \x7b name: '" ++ escapeString textContent ++ "' \x7d)",
        sanitizeKey textContent⟩
    else
      match attrGet attributes "href" with
      | some href =>
        if href ≠ "" ∧ href ≠ "#" ∧ href.length > 0 then
          ⟨"locator('a[href=\"" ++ href ++ "\"]')", generateHrefKey href index⟩
        else ⟨"locator('a').nth(" ++ natRepr index ++ ")", "link_" ++ natRepr index⟩
      | none => ⟨"locator('a').nth(" ++ natRepr index ++ ")", "link_" ++ natRepr index⟩
  else if tagName = "img" then
    match attrGet attributes "alt" with
    | some alt =>
      if alt ≠ "" then ⟨"getByAltText('" ++ escapeString alt ++ "')", sanitizeKey alt⟩
      else ⟨"getByRole('img')", "image_" ++ natRepr index⟩
    | none => ⟨"getByRole('img')", "image_" ++ natRepr index⟩
  else if textContent ≠ "" ∧ textContent.length > 0 ∧ textContent.length < 100 then
    ⟨"getByText('" ++ escapeString textContent ++ "')", sanitizeKey textContent⟩
  else if optTruthy testId then
    ⟨"getByTestId('" ++ testId.getD "" ++ "')", sanitizeKey (testId.getD "")⟩
  else if optTruthy id then
    ⟨"locator('#" ++ id.getD "" ++ "')", sanitizeKey (id.getD "")⟩
  else if optTruthy name then
    ⟨"locator('[name=\"" ++ name.getD "" ++ "\"]')", sanitizeKey (name.getD "")⟩
  else ⟨"locator('" ++ tagName ++ "').nth(" ++ natRepr index ++ ")",
    tagName ++ "_" ++ natRepr index⟩

/-- PageObjectGenerator.generateFallbackName. -/
def generateFallbackName (elementType tagName : String)
    (attributes : List (String × String)) (index : Nat) : String :=
  let dflt := elementType ++ "_" ++ natRepr index
  if tagName = "a" then
    match attrGet attributes "href" with
    | some href => if href ≠ "" then generateHrefName href else dflt
    | none => dflt
  else if tagName = "img" then
    let alt := attrGet attributes "alt"
    let src := attrGet attributes "src"
    if optTruthy alt then alt.getD ""
    else if optTruthy src then
      let filename := ((((src.getD "").splitOn "/").getLastD "").splitOn ".").headD ""
      if filename ≠ "" then tagName ++ "_" ++ filename else dflt
    else dflt
  else if tagName ∈ ["input", "select", "textarea"] then
    let type_ := attrGet attributes "type"
    let value := attrGet attributes "value"
    if optTruthy type_ ∧ type_.getD "" ≠ "text" then type_.getD "" ++ "Input"
    else if optTruthy value ∧ (value.getD "").length < 20 then
      tagName ++ "_" ++ sanitizeKey (value.getD "")
    else dflt
  else if tagName = "button" then
    let type_ := attrGet attributes "type"
    let value := attrGet attributes "value"
    if optTruthy value ∧ (value.getD "").length < 20 then value.getD ""
    else if optTruthy type_ ∧ type_.getD "" ≠ "button" then type_.getD "" ++ "Button"
    else dflt
  else dflt

/-- PageObjectGenerator.generatePropertyName, the naming cascade. -/
def generatePropertyName (elementType tagName textContent ariaLabel placeholder
    nameAttr id : String) (attributes : List (String × String)) (index : Nat) : String :=
  let name :=
    if ariaLabel ≠ "" ∧ ariaLabel.length > 0 ∧ ariaLabel.length < 50 then ariaLabel
    else if nameAttr ≠ "" then nameAttr
    else if placeholder ≠ "" then placeholder
    else if textContent ≠ "" ∧ textContent.length > 0 ∧ textContent.length < 50 then
      textContent
    else if id ≠ "" then id
    else generateFallbackName elementType tagName attributes index
  let c := toCamelCase name
  if c = "" then "element" ++ natRepr index else c

/-- The pure tail of PageObjectGenerator.extractElementInfo: assembling one
AccessibleElement record once the DOM reads of tag, role, text and the
attribute snapshot are done. -/
def extractElementInfoPure (tagName role textContent id className nameAttr placeholder
    ariaLabel ariaLabelledby : String) (attributes : List (String × String))
    (index : Nat) : AccessibleElement :=
  let elementType := getElementType tagName role ((attrGet attributes "type").getD "")
  let elementSelector :=
    generateSelector tagName role textContent ariaLabel placeholder attributes index
  let propertyName :=
    generatePropertyName elementType tagName textContent ariaLabel placeholder
      nameAttr id attributes index
  { name := propertyName, type := elementType, selector := elementSelector,
    tagName := tagName, textContent := textContent, id := id, className := className,
    role := role, nameAttr := nameAttr, placeholder := placeholder,
    ariaLabel := ariaLabel, ariaLabelledby := ariaLabelledby,
    attributes := attributes, propertyName := propertyName, key := elementSelector.key }

/-! ## Definitions written from the wording of the specification, for the
refinement claims that compare code behaviour with the stated behaviour. -/

/-- Modelled from the spec for C6: keep only the first element for each
distinct selector expression, preserving first-seen order. -/
def firstPerSelector (seen : List String) : List AccessibleElement → List AccessibleElement
  | [] => []
  | el :: rest =>
    if el.selector.selector ∈ seen then firstPerSelector seen rest
    else el :: firstPerSelector (el.selector.selector :: seen) rest

def dedupBySelector (l : List AccessibleElement) : List AccessibleElement :=
  firstPerSelector [] l

/-- Agreement on every AccessibleElement field other than propertyName. -/
def sameExceptPropertyName (a b : AccessibleElement) : Prop :=
  a.name = b.name ∧ a.type = b.type ∧ a.selector = b.selector ∧ a.tagName = b.tagName ∧
  a.textContent = b.textContent ∧ a.id = b.id ∧ a.className = b.className ∧
  a.role = b.role ∧ a.nameAttr = b.nameAttr ∧ a.placeholder = b.placeholder ∧
  a.ariaLabel = b.ariaLabel ∧ a.ariaLabelledby = b.ariaLabelledby ∧
  a.attributes = b.attributes ∧ a.key = b.key

/-- Count of single quotes that are not preceded by a backslash, tracking
the previous character. -/
def countUnescapedFrom (prev : Option Char) : List Char → Nat
  | [] => 0
  | c :: rest =>
    (if c = '\'' ∧ prev ≠ some '\\' then 1 else 0) + countUnescapedFrom (some c) rest

def unescapedQuoteCount (l : List Char) : Nat := countUnescapedFrom none l

/-! ## General helper lemmas -/

theorem char_toNat_ofNat (n : Nat) (h : n.isValidChar) : (Char.ofNat n).toNat = n := by
  simp only [Char.ofNat, h, dif_pos]
  simp [Char.ofNatAux, Char.toNat, UInt32.toNat, UInt32.ofNatCore]

/-! ## Claim C7: the email-input end-to-end scenario -/

/-- Claim C7: for a node with tag input, empty role, type attribute email
and aria-label Email Address, the classifier yields email, the selector
synthesizer takes the label branch producing getByLabel on the aria-label,
the name synthesizer camel-cases the aria-label to emailAddress, and the
assembled record carries exactly these three values. -/
theorem emailInput_scenario :
    getElementType "input" "" "email" = "email" ∧
    generateSelector "input" "" "" "Email Address" ""
      [("type", "email"), ("aria-label", "Email Address")] 0 =
      ⟨"getByLabel('Email Address')", "emailaddress"⟩ ∧
    generatePropertyName "email" "input" "" "Email Address" "" "" ""
      [("type", "email"), ("aria-label", "Email Address")] 0 = "emailAddress" ∧
    (extractElementInfoPure "input" "" "" "" "" "" "" "Email Address" ""
      [("type", "email"), ("aria-label", "Email Address")] 0).type = "email" ∧
    (extractElementInfoPure "input" "" "" "" "" "" "" "Email Address" ""
      [("type", "email"), ("aria-label", "Email Address")] 0).selector.selector =
      "getByLabel('Email Address')" ∧
    (extractElementInfoPure "input" "" "" "" "" "" "" "Email Address" ""
      [("type", "email"), ("aria-label", "Email Address")] 0).propertyName =
      "emailAddress" := by
  decide

/-! ## Claim C3: configuration validation at maxTextLength below 1 -/

/-- Claim C3 (code bug): the guard `config.maxTextLength &&
config.maxTextLength < 1` treats the value 0 as absent because 0 is falsy
in JS, so a configuration with maxTextLength = 0 produces no validation
error and extraction proceeds to the DOM, although 0 < 1 and the produced
error message itself demands a value of at least 1.  Negative values and
an explicitly empty selector-priority list are rejected as specified. -/
theorem validateConfig_zero_maxTextLength_not_rejected :
    validateConfig ⟨some 0, none⟩ = [] ∧
    ((0 : Int) < 1) ∧
    (validateConfig ⟨some (-1), none⟩).length = 1 ∧
    (validateConfig ⟨some (-1), none⟩).all (fun r => r.type == "error") = true ∧
    (validateConfig ⟨none, some []⟩).length = 1 ∧
    (validateConfig ⟨none, some []⟩).all (fun r => r.type == "error") = true ∧
    validateConfig ⟨none, some ["role"]⟩ = [] := by
  decide

/-! ## Claim C2: classifier totality and the element-type table -/

/-- Claim C2 counterexample: the pattern nav is listed in
DEFAULT_ELEMENT_TYPES under navigation, yet classifying the matching
triple (nav, no role, no type) yields text, not navigation — the
classifier never consults the table. -/
theorem getElementType_nav_not_navigation :
    "nav" ∈ elementTypePatterns "navigation" ∧
    getElementType "nav" "" "" = "text" ∧
    ("text" : String) ≠ "navigation" := by
  decide

/-- Claim C2 as amended: the classifier is total — it returns a nonempty
type string on every input — and the table patterns its cascade does
honour (button, link, special input types, select tag and combobox role,
textarea, image, heading tags, label tag, alert, dialog, tab roles on
div/span, text tags) classify to the documented type; the tag patterns
nav, main, aside, header, footer, section, article and the role-only
patterns navigation, label, heading, listbox, tabpanel do not. -/
theorem getElementType_total_and_honoured_table :
    (∀ t r ty, getElementType t r ty ≠ "") ∧
    (getElementType "button" "" "" = "button" ∧
     getElementType "input" "" "button" = "button" ∧
     getElementType "input" "" "submit" = "button" ∧
     getElementType "input" "" "reset" = "button" ∧
     getElementType "div" "button" "" = "button" ∧
     getElementType "a" "" "" = "link" ∧
     getElementType "div" "link" "" = "link" ∧
     getElementType "input" "" "text" = "input" ∧
     getElementType "input" "" "number" = "input" ∧
     getElementType "input" "" "search" = "input" ∧
     getElementType "input" "" "email" = "email" ∧
     getElementType "input" "" "password" = "password" ∧
     getElementType "input" "" "checkbox" = "checkbox" ∧
     getElementType "input" "" "radio" = "radio" ∧
     getElementType "select" "" "" = "select" ∧
     getElementType "div" "combobox" "" = "select" ∧
     getElementType "textarea" "" "" = "textarea" ∧
     getElementType "img" "" "" = "image" ∧
     getElementType "div" "img" "" = "image" ∧
     getElementType "h1" "" "" = "heading" ∧
     getElementType "h6" "" "" = "heading" ∧
     getElementType "label" "" "" = "label" ∧
     getElementType "div" "alert" "" = "alert" ∧
     getElementType "div" "status" "" = "alert" ∧
     getElementType "span" "alertdialog" "" = "alert" ∧
     getElementType "div" "dialog" "" = "dialog" ∧
     getElementType "span" "modal" "" = "dialog" ∧
     getElementType "div" "tab" "" = "tab" ∧
     getElementType "p" "" "" = "text" ∧
     getElementType "span" "" "" = "text" ∧
     getElementType "div" "" "" = "text" ∧
     getElementType "" "" "" = "generic") := by
  constructor
  · intro t r ty
    unfold getElementType
    dsimp only
    by_cases h1 : jsToLower t = "button" ∨ jsToLower r = "button" ∨
        (jsToLower t = "input" ∧ jsToLower ty ∈ ["button", "submit", "reset"])
    · rw [if_pos h1]; decide
    rw [if_neg h1]
    by_cases h2 : jsToLower t = "a" ∨ jsToLower r = "link"
    · rw [if_pos h2]; decide
    rw [if_neg h2]
    by_cases h3 : jsToLower t = "input"
    · rw [if_pos h3]
      by_cases h3b : jsToLower ty ∈ ["checkbox", "radio", "file", "range", "color",
          "date", "time", "datetime-local", "month", "week", "password", "email",
          "tel", "url"]
      · rw [if_pos h3b]
        intro hc
        rw [hc] at h3b
        exact absurd h3b (by decide)
      · rw [if_neg h3b]; decide
    rw [if_neg h3]
    by_cases h4 : jsToLower t = "select" ∨ jsToLower r = "combobox"
    · rw [if_pos h4]; decide
    rw [if_neg h4]
    by_cases h5 : jsToLower t = "textarea"
    · rw [if_pos h5]; decide
    rw [if_neg h5]
    by_cases h6 : jsToLower t = "img" ∨ jsToLower r = "img"
    · rw [if_pos h6]; decide
    rw [if_neg h6]
    by_cases h7 : jsToLower t ∈ ["h1", "h2", "h3", "h4", "h5", "h6"]
    · rw [if_pos h7]; decide
    rw [if_neg h7]
    by_cases h8 : jsToLower t = "label" ∨ jsToLower r = "link"
    · rw [if_pos h8]; decide
    rw [if_neg h8]
    by_cases h9 : (jsToLower t = "div" ∨ jsToLower t = "span") ∧
        jsToLower r ∈ ["alert", "status", "alertdialog"]
    · rw [if_pos h9]; decide
    rw [if_neg h9]
    by_cases h10 : (jsToLower t = "div" ∨ jsToLower t = "span") ∧
        jsToLower r ∈ ["dialog", "modal"]
    · rw [if_pos h10]; decide
    rw [if_neg h10]
    by_cases h11 : (jsToLower t = "div" ∨ jsToLower t = "span") ∧ jsToLower r = "tab"
    · rw [if_pos h11]; decide
    rw [if_neg h11]
    by_cases h12 : jsToLower t ∈ ["p", "span", "div", "section", "article", "main",
        "aside", "header", "footer", "nav"]
    · rw [if_pos h12]; decide
    rw [if_neg h12]
    by_cases h13 : jsToLower t = ""
    · rw [if_pos h13]; decide
    · rw [if_neg h13]; exact h13
  · decide

/-! ## Claim C4: the hidden-element filter -/

/-- Claim C4 counterexample: an element whose hidden attribute is present
with the nonempty value hidden (as in hidden="hidden") is NOT dropped —
the source compares the attribute against the empty string only — so the
claim that any value of the hidden attribute causes removal fails. -/
theorem hiddenFilter_keeps_nonempty_hidden_attr :
    (attrGet [("hidden", "hidden")] "hidden").isSome = true ∧
    hiddenElementFilter
        [{ mkElem "x" with tagName := "a", attributes := [("hidden", "hidden")] }] =
      [{ mkElem "x" with tagName := "a", attributes := [("hidden", "hidden")] }] := by
  decide

/-- Claim C4 as amended: HiddenElementFilter.filter keeps exactly the
in-order elements satisfying its keep predicate (so it is a sublist of the
input), and no kept element has a hidden attribute with EMPTY value, nor
aria-hidden equal to true; a hidden attribute with a nonempty value does
not trigger removal. -/
theorem hiddenElementFilter_spec :
    ∀ (es : List AccessibleElement) (e : AccessibleElement),
      (e ∈ hiddenElementFilter es ↔ e ∈ es ∧ hiddenElementKeep e = true) ∧
      List.Sublist (hiddenElementFilter es) es ∧
      (hiddenElementKeep e &&
        (attrGet e.attributes "hidden" == some "" ||
         attrGet e.attributes "aria-hidden" == some "true")) = false := by
  intro es e
  refine ⟨List.mem_filter, List.filter_sublist es, ?_⟩
  cases hh : (attrGet e.attributes "hidden" == some "" ||
      attrGet e.attributes "aria-hidden" == some "true") with
  | false => simp
  | true => simp [hiddenElementKeep, hh]

/-! ## Claim C9: uniquification only rewrites the propertyName field -/

theorem uniquifyGo_forall2 (used : List String) (l : List AccessibleElement) :
    List.Forall₂ sameExceptPropertyName l (uniquifyGo used l) := by
  induction l generalizing used with
  | nil => constructor
  | cons el rest ih =>
    simp only [uniquifyGo]
    refine List.Forall₂.cons ?_ (ih _)
    exact ⟨rfl, rfl, rfl, rfl, rfl, rfl, rfl, rfl, rfl, rfl, rfl, rfl, rfl, rfl⟩

/-- Claim C9: each output element of uniquifyPropertyNames agrees with the
corresponding input element on every field except propertyName; the name
field in particular is untouched, so after a collision an element can
carry a name different from its uniquified propertyName, as the concrete
two-element collision shows. -/
theorem uniquify_changes_only_propertyName :
    (∀ l, List.Forall₂ sameExceptPropertyName l (uniquifyPropertyNames l)) ∧
    ((uniquifyPropertyNames [mkElem "n", mkElem "n"]).getD 1 (mkElem "")).name = "n" ∧
    ((uniquifyPropertyNames [mkElem "n", mkElem "n"]).getD 1 (mkElem "")).propertyName
      = "n1" ∧
    ("n" : String) ≠ "n1" := by
  exact ⟨fun l => uniquifyGo_forall2 [] l, by decide, by decide, by decide⟩

/-! ## Claim C8: the runtime visibility filter -/

theorem visibilityFoldAux (isVisible : AccessibleElement → Except Unit Bool)
    (l : List AccessibleElement) : ∀ acc : List AccessibleElement,
    l.foldl (fun acc el =>
        match isVisible el with
        | .ok true => acc ++ [el]
        | .ok false => acc
        | .error _ => acc ++ [el]) acc =
      acc ++ l.filter (fun el =>
        match isVisible el with
        | .ok v => v
        | .error _ => true) := by
  induction l with
  | nil => intro acc; simp
  | cons el rest ih =>
    intro acc
    simp only [List.foldl_cons, List.filter_cons]
    cases hv : isVisible el with
    | ok v => cases v <;> simp [hv, ih]
    | error e => simp [hv, ih]

/-- Claim C8: with the stage disabled the input is returned unchanged;
with the stage enabled the output is the in-order filter keeping every
element whose visibility oracle raises an error (conservative keep) or
reports visible, and dropping exactly those whose check completes with
not-visible; the output is always a sublist of the input, so order is
preserved. -/
theorem visibilityFilterAsync_spec :
    ∀ (enabled : Bool) (elements : List AccessibleElement)
      (isVisible : AccessibleElement → Except Unit Bool),
      (enabled = false → visibilityFilterAsync enabled elements isVisible = elements) ∧
      (enabled = true → visibilityFilterAsync enabled elements isVisible =
        elements.filter (fun el =>
          match isVisible el with
          | .ok v => v
          | .error _ => true)) ∧
      List.Sublist (visibilityFilterAsync enabled elements isVisible) elements := by
  intro enabled elements isVisible
  refine ⟨?_, ?_, ?_⟩
  · intro he; subst he; simp [visibilityFilterAsync]
  · intro he; subst he
    simp only [visibilityFilterAsync, Bool.not_true, Bool.false_eq_true, if_false]
    rw [visibilityFoldAux isVisible elements []]
    simp
  · cases enabled with
    | false => simp [visibilityFilterAsync]
    | true =>
      simp only [visibilityFilterAsync, Bool.not_true, Bool.false_eq_true, if_false]
      rw [visibilityFoldAux isVisible elements []]
      simp only [List.nil_append]
      exact List.filter_sublist elements

/-- Claim C8 witness: at a concrete two-element input whose first element
errors during the check and whose second reports not-visible, the enabled
stage keeps exactly the erroring element. -/
theorem visibilityFilterAsync_spec_witness :
    visibilityFilterAsync true [mkElem "a", mkElem "b"]
      (fun el => if el.propertyName = "a" then .error () else .ok false) =
      [mkElem "a"] := by
  have h := (visibilityFilterAsync_spec true [mkElem "a", mkElem "b"]
    (fun el => if el.propertyName = "a" then .error () else .ok false)).2.1 rfl
  rw [h]
  decide

/-! ## Claim C6: the duplicate filter equals first-occurrence deduplication -/

def valuesHead (g : List (String × List AccessibleElement)) : List AccessibleElement :=
  (g.map (fun p => p.2)).filterMap (fun l => l.head?)

def keysOf (g : List (String × List AccessibleElement)) : List String :=
  g.map (fun p => p.1)

theorem find_isSome_iff_mem_keys (acc : List (String × List AccessibleElement))
    (k : String) :
    ((acc.find? (fun p => p.1 = k)).isSome = true) ↔ k ∈ keysOf acc := by
  simp [List.find?_isSome, keysOf, List.mem_map, decide_eq_true_eq]

theorem groupByUpd_keys_found (acc : List (String × List AccessibleElement))
    (k : String) (el : AccessibleElement) (h : k ∈ keysOf acc) :
    keysOf (groupByUpd acc k el) = keysOf acc := by
  unfold groupByUpd
  rw [if_pos ((find_isSome_iff_mem_keys acc k).2 h)]
  unfold keysOf
  rw [List.map_map]
  refine List.map_congr_left ?_
  intro p _
  dsimp
  split <;> rfl

theorem groupByUpd_keys_new (acc : List (String × List AccessibleElement))
    (k : String) (el : AccessibleElement) (h : k ∉ keysOf acc) :
    keysOf (groupByUpd acc k el) = keysOf acc ++ [k] := by
  unfold groupByUpd
  rw [if_neg (fun hs => h ((find_isSome_iff_mem_keys acc k).1 hs))]
  simp [keysOf]

theorem groupByUpd_valuesHead_found (acc : List (String × List AccessibleElement))
    (k : String) (el : AccessibleElement) (h : k ∈ keysOf acc)
    (hne : ∀ p ∈ acc, p.2 ≠ []) :
    valuesHead (groupByUpd acc k el) = valuesHead acc := by
  unfold groupByUpd
  rw [if_pos ((find_isSome_iff_mem_keys acc k).2 h)]
  unfold valuesHead
  simp only [List.filterMap_map]
  refine List.filterMap_congr ?_
  intro p hp
  dsimp [Function.comp]
  split
  · have hp2 := hne p hp
    cases hcase : p.2 with
    | nil => exact absurd hcase hp2
    | cons a t => rfl
  · rfl

theorem groupByUpd_valuesHead_new (acc : List (String × List AccessibleElement))
    (k : String) (el : AccessibleElement) (h : k ∉ keysOf acc) :
    valuesHead (groupByUpd acc k el) = valuesHead acc ++ [el] := by
  unfold groupByUpd
  rw [if_neg (fun hs => h ((find_isSome_iff_mem_keys acc k).1 hs))]
  simp [valuesHead, List.filterMap_append]

theorem groupByUpd_nonempty (acc : List (String × List AccessibleElement))
    (k : String) (el : AccessibleElement) (hne : ∀ p ∈ acc, p.2 ≠ []) :
    ∀ p ∈ groupByUpd acc k el, p.2 ≠ [] := by
  unfold groupByUpd
  split
  · intro p hp
    rcases List.mem_map.1 hp with ⟨q, hq, hqe⟩
    subst hqe
    dsimp
    split
    · simp
    · exact hne q hq
  · intro p hp
    rcases List.mem_append.1 hp with hp | hp
    · exact hne p hp
    · rcases List.mem_singleton.1 hp with rfl
      simp

theorem firstPerSelector_cons_mem (seen : List String) (el : AccessibleElement)
    (rest : List AccessibleElement) (h : el.selector.selector ∈ seen) :
    firstPerSelector seen (el :: rest) = firstPerSelector seen rest := by
  simp only [firstPerSelector]
  rw [if_pos h]

theorem firstPerSelector_cons_not_mem (seen : List String) (el : AccessibleElement)
    (rest : List AccessibleElement) (h : el.selector.selector ∉ seen) :
    firstPerSelector seen (el :: rest) =
      el :: firstPerSelector (el.selector.selector :: seen) rest := by
  simp only [firstPerSelector]
  rw [if_neg h]

theorem firstPerSelector_seen_congr :
    ∀ (l : List AccessibleElement) (s1 s2 : List String),
      (∀ x, x ∈ s1 ↔ x ∈ s2) →
      firstPerSelector s1 l = firstPerSelector s2 l := by
  intro l
  induction l with
  | nil => intro s1 s2 _; rfl
  | cons el rest ih =>
    intro s1 s2 hiff
    unfold firstPerSelector
    by_cases hm : el.selector.selector ∈ s1
    · rw [if_pos hm, if_pos ((hiff _).1 hm)]
      exact ih s1 s2 hiff
    · rw [if_neg hm, if_neg (fun hc => hm ((hiff _).2 hc))]
      refine congrArg _ ?_
      refine ih _ _ ?_
      intro x
      simp only [List.mem_cons]
      exact or_congr Iff.rfl (hiff x)

theorem groupFold_valuesHead :
    ∀ (l : List AccessibleElement) (acc : List (String × List AccessibleElement)),
      (∀ p ∈ acc, p.2 ≠ []) →
      valuesHead (l.foldl (fun acc el => groupByUpd acc el.selector.selector el) acc) =
        valuesHead acc ++ firstPerSelector (keysOf acc) l := by
  intro l
  induction l with
  | nil => intro acc _; simp [firstPerSelector]
  | cons el rest ih =>
    intro acc hne
    rw [List.foldl_cons]
    rw [ih _ (groupByUpd_nonempty acc _ el hne)]
    by_cases hmem : el.selector.selector ∈ keysOf acc
    · rw [groupByUpd_valuesHead_found acc _ el hmem hne,
        groupByUpd_keys_found acc _ el hmem,
        firstPerSelector_cons_mem (keysOf acc) el rest hmem]
    · rw [groupByUpd_valuesHead_new acc _ el hmem, groupByUpd_keys_new acc _ el hmem,
        firstPerSelector_cons_not_mem (keysOf acc) el rest hmem]
      rw [firstPerSelector_seen_congr rest (keysOf acc ++ [el.selector.selector])
        (el.selector.selector :: keysOf acc) (by intro x; simp [or_comm])]
      simp

theorem firstPerSelector_nodup_notin :
    ∀ (l : List AccessibleElement) (seen : List String),
      (((firstPerSelector seen l).map (fun e => e.selector.selector)).Nodup ∧
       ∀ k ∈ (firstPerSelector seen l).map (fun e => e.selector.selector), k ∉ seen) := by
  intro l
  induction l with
  | nil => intro seen; simp [firstPerSelector]
  | cons el rest ih =>
    intro seen
    unfold firstPerSelector
    by_cases hm : el.selector.selector ∈ seen
    · rw [if_pos hm]; exact ih seen
    · rw [if_neg hm]
      rcases ih (el.selector.selector :: seen) with ⟨hnd, hnin⟩
      constructor
      · rw [List.map_cons]
        refine List.Nodup.cons ?_ hnd
        intro hc
        exact (hnin _ hc) (List.mem_cons_self _ _)
      · intro k hk
        rcases List.mem_cons.1 hk with rfl | hk
        · exact hm
        · intro hc
          exact (hnin k hk) (List.mem_cons_of_mem _ hc)

theorem firstPerSelector_sublist :
    ∀ (l : List AccessibleElement) (seen : List String),
      List.Sublist (firstPerSelector seen l) l := by
  intro l
  induction l with
  | nil => intro seen; simp [firstPerSelector]
  | cons el rest ih =>
    intro seen
    unfold firstPerSelector
    split
    · exact List.Sublist.cons el (ih seen)
    · exact List.Sublist.cons₂ el (ih _)

/-- Claim C6: DuplicateElementFilter.filter computes exactly the
first-occurrence-per-selector subsequence — it equals the specification
dedupBySelector, the output selector expressions are pairwise distinct
(so equal-selector duplicates collapse to one element), and the output is
an in-order sublist of the input. -/
theorem duplicateElementFilter_spec :
    ∀ l : List AccessibleElement,
      duplicateElementFilter l = dedupBySelector l ∧
      ((duplicateElementFilter l).map (fun e => e.selector.selector)).Nodup ∧
      List.Sublist (duplicateElementFilter l) l := by
  intro l
  have heq : duplicateElementFilter l = dedupBySelector l := by
    have h := groupFold_valuesHead l [] (by intro p hp; cases hp)
    unfold duplicateElementFilter groupBySelector dedupBySelector
    unfold valuesHead at h
    simpa [valuesHead, keysOf] using h
  refine ⟨heq, ?_, ?_⟩
  · rw [heq]
    exact (firstPerSelector_nodup_notin l []).1
  · rw [heq]
    exact firstPerSelector_sublist l []

/-! ## Claim C10: well-formedness of generated identifier fragments -/

/-- The head of a character list is a legal identifier start (letter or
underscore); false on the empty list. -/
def headIsIdentStart : List Char → Bool
  | [] => false
  | c :: _ => isAsciiLetter c || c == '_'

theorem isValidChar_of_le (n : Nat) (h : n ≤ 122) : n.isValidChar :=
  Or.inl (by omega)

theorem jsToLowerChar_lower_or_digit (c : Char) (h : isAsciiAlphanum c = true) :
    (isAsciiLower (jsToLowerChar c) || isAsciiDigitChar (jsToLowerChar c)) = true := by
  unfold jsToLowerChar
  by_cases hu : isAsciiUpper c = true
  · rw [if_pos hu]
    simp only [isAsciiUpper, Bool.and_eq_true, decide_eq_true_eq] at hu
    have hv : (c.toNat + 32).isValidChar := isValidChar_of_le _ (by omega)
    simp only [isAsciiLower, isAsciiDigitChar, char_toNat_ofNat _ hv, Bool.or_eq_true,
      Bool.and_eq_true, decide_eq_true_eq]
    omega
  · rw [if_neg hu]
    simp only [Bool.not_eq_true] at hu
    simp only [isAsciiAlphanum, isAsciiLetter, isAsciiUpper, isAsciiLower,
      isAsciiDigitChar, Bool.or_eq_true, Bool.and_eq_true, decide_eq_true_eq] at h ⊢
    simp only [isAsciiUpper, Bool.and_eq_true, decide_eq_true_eq,
      Bool.and_eq_false_iff, decide_eq_false_iff_not] at hu
    omega

theorem jsToLowerChar_id_of_lower_or_digit (c : Char)
    (h : (isAsciiLower c || isAsciiDigitChar c) = true) : jsToLowerChar c = c := by
  unfold jsToLowerChar
  rw [if_neg]
  simp only [isAsciiUpper, isAsciiLower, isAsciiDigitChar, Bool.or_eq_true,
    Bool.and_eq_true, decide_eq_true_eq] at h ⊢
  omega

theorem lower_or_digit_alnum (c : Char)
    (h : (isAsciiLower c || isAsciiDigitChar c) = true) : isAsciiAlphanum c = true := by
  simp only [isAsciiAlphanum, isAsciiLetter, Bool.or_eq_true] at h ⊢
  tauto

theorem sanitizeKey_chars (s : String) :
    (sanitizeKey s).data.all (fun c => isAsciiLower c || isAsciiDigitChar c) = true := by
  rw [List.all_eq_true]
  intro c hc
  rcases List.mem_map.1 hc with ⟨d, hd, rfl⟩
  exact jsToLowerChar_lower_or_digit d (List.of_mem_filter hd)

theorem sanitizeKey_idem (s : String) : sanitizeKey (sanitizeKey s) = sanitizeKey s := by
  have hch := List.all_eq_true.1 (sanitizeKey_chars s)
  conv_lhs => rw [sanitizeKey]
  have hfil : (sanitizeKey s).data.filter isAsciiAlphanum = (sanitizeKey s).data :=
    List.filter_eq_self.2 (fun a ha => lower_or_digit_alnum a (hch a ha))
  rw [hfil]
  have hmap : (sanitizeKey s).data.map jsToLowerChar = (sanitizeKey s).data := by
    rw [List.map_congr_left (fun a ha => jsToLowerChar_id_of_lower_or_digit a (hch a ha))]
    exact List.map_id _
  rw [hmap]

theorem dropWhile_head_false {p : Char → Bool} :
    ∀ (l : List Char) (c : Char) (t : List Char), l.dropWhile p = c :: t → p c = false := by
  intro l
  induction l with
  | nil => intro c t h; cases h
  | cons a r ih =>
    intro c t h
    rw [List.dropWhile_cons] at h
    by_cases hp : p a = true
    · rw [if_pos hp] at h
      exact ih c t h
    · rw [if_neg hp] at h
      cases h
      simpa using hp

theorem camel_finalize_props (joined : List Char) :
    ((if stripBadStart ((joined.filter isWordChar).dropWhile isAsciiDigitChar) = []
        then ("element" : String)
        else ⟨stripBadStart ((joined.filter isWordChar).dropWhile isAsciiDigitChar)⟩).data.all
        isWordChar = true) ∧
    headIsIdentStart
      (if stripBadStart ((joined.filter isWordChar).dropWhile isAsciiDigitChar) = []
        then ("element" : String)
        else ⟨stripBadStart ((joined.filter isWordChar).dropWhile isAsciiDigitChar)⟩).data
      = true := by
  cases hnd : (joined.filter isWordChar).dropWhile isAsciiDigitChar with
  | nil => exact ⟨by decide, by decide⟩
  | cons c t =>
    have hcd : isAsciiDigitChar c = false := dropWhile_head_false _ c t hnd
    have hmemf : ∀ x ∈ c :: t, x ∈ joined.filter isWordChar := by
      intro x hx
      exact (List.dropWhile_sublist isAsciiDigitChar).subset (hnd ▸ hx)
    have hcw : isWordChar c = true :=
      List.of_mem_filter (hmemf c (List.mem_cons_self c t))
    have hlu : (isAsciiLetter c || c == '_') = true := by
      simp only [isWordChar, isAsciiAlphanum, Bool.or_eq_true] at hcw ⊢
      rcases hcw with (h | h) | h
      · exact Or.inl h
      · rw [hcd] at h; cases h
      · exact Or.inr h
    have hcond : (isAsciiLetter c || c == '_' || c == '$') = true := by
      simp only [Bool.or_eq_true] at hlu ⊢
      tauto
    have hstrip : stripBadStart (c :: t) = c :: t := by
      simp only [stripBadStart, hcond, if_true]
    rw [hstrip]
    have hne : (c :: t : List Char) ≠ [] := by simp
    rw [if_neg hne]
    refine ⟨?_, ?_⟩
    · rw [List.all_eq_true]
      intro x hx
      exact List.of_mem_filter (hmemf x hx)
    · simpa [headIsIdentStart] using hlu

/-- Claim C10: toCamelCase always yields a nonempty identifier whose head
is an ASCII letter or underscore and whose characters are all word
characters (letters, digits, underscore), with the fallback element when
nothing valid remains; sanitizeKey yields only lowercase letters and
digits and is idempotent. -/
theorem identifier_wellformedness :
    ∀ s : String,
      headIsIdentStart (toCamelCase s).data = true ∧
      (toCamelCase s).data.all isWordChar = true ∧
      (sanitizeKey s).data.all (fun c => isAsciiLower c || isAsciiDigitChar c) = true ∧
      sanitizeKey (sanitizeKey s) = sanitizeKey s := by
  intro s
  refine ⟨?_, ?_, sanitizeKey_chars s, sanitizeKey_idem s⟩
  all_goals
    unfold toCamelCase
    by_cases hs : s = ""
  · rw [if_pos hs]; decide
  · rw [if_neg hs]
    dsimp only
    exact (camel_finalize_props _).2
  · rw [if_pos hs]; decide
  · rw [if_neg hs]
    dsimp only
    exact (camel_finalize_props _).1

/-! ## Claim C5: quote escaping in the selector synthesizer -/

theorem countUnescapedFrom_escape (l : List Char) :
    ∀ prev, countUnescapedFrom prev (l.foldr (fun c acc => escapeChar c ++ acc) []) = 0 := by
  induction l with
  | nil => intro prev; rfl
  | cons c r ih =>
    intro prev
    simp only [List.foldr_cons]
    by_cases hc : c = '\''
    · subst hc
      rw [show escapeChar '\'' = ['\\', '\''] from rfl]
      simp [countUnescapedFrom]
      exact ih _
    · have he : escapeChar c = [c] := by simp [escapeChar, hc]
      rw [he]
      simp only [List.cons_append, List.nil_append, countUnescapedFrom]
      simp [hc, ih]

/-- Claim C5 counterexample: a data-testid value containing a single quote
is interpolated into the locator expression without escaping — the output
differs from the escaped form and carries three unescaped quotes where an
escaped interpolation would leave exactly the two template quotes. -/
theorem generateSelector_testid_not_escaped :
    (generateSelector "div" "" "" "" "" [("data-testid", "a'b")] 0).selector =
      "getByTestId('a'b')" ∧
    "getByTestId('a'b')" ≠ "getByTestId('" ++ escapeString "a'b" ++ "')" ∧
    unescapedQuoteCount ("getByTestId('a'b')").data = 3 := by
  decide

/-- Claim C5 as amended: escapeString leaves no unescaped single quote,
and the selector branches built from accessible names, aria-labels,
placeholders, text content and alt text interpolate the escaped literal;
the data-testid branch (like the id, name-attribute and href branches)
interpolates its value raw, without escaping. -/
theorem generateSelector_escaping :
    (∀ s, unescapedQuoteCount (escapeString s).data = 0) ∧
    (∀ (tag role textContent ariaLabel placeholder : String)
        (attrs : List (String × String)) (idx : Nat),
      role ≠ "" → (ariaLabel ≠ "" ∨ textContent ≠ "") →
      (generateSelector tag role textContent ariaLabel placeholder attrs idx).selector =
        "getByRole('" ++ role ++ "', \x7b name: '" ++
          escapeString (if ariaLabel ≠ "" then ariaLabel else textContent) ++ "' \x7d)") ∧
    (∀ (tag textContent ariaLabel placeholder : String)
        (attrs : List (String × String)) (idx : Nat),
      tag ∈ ["input", "select", "textarea"] → ariaLabel ≠ "" →
      (generateSelector tag "" textContent ariaLabel placeholder attrs idx).selector =
        "getByLabel('" ++ escapeString ariaLabel ++ "')") ∧
    (∀ (tag textContent placeholder : String)
        (attrs : List (String × String)) (idx : Nat),
      tag ∈ ["input", "select", "textarea"] → placeholder ≠ "" →
      (generateSelector tag "" textContent "" placeholder attrs idx).selector =
        "getByPlaceholder('" ++ escapeString placeholder ++ "')") ∧
    (∀ (textContent placeholder : String) (attrs : List (String × String)) (idx : Nat),
      textContent ≠ "" →
      (generateSelector "button" "" textContent "" placeholder attrs idx).selector =
        "getByRole('button', \x7b name: '" ++ escapeString textContent ++ "' \x7d)") ∧
    (∀ (textContent placeholder : String) (attrs : List (String × String)) (idx : Nat),
      textContent ≠ "" →
      (generateSelector "a" "" textContent "" placeholder attrs idx).selector =
        "getByRole('link', \x7b name: '" ++ escapeString textContent ++ "' \x7d)") ∧
    (∀ (attrs : List (String × String)) (idx : Nat) (alt : String),
      attrGet attrs "alt" = some alt → alt ≠ "" →
      (generateSelector "img" "" "" "" "" attrs idx).selector =
        "getByAltText('" ++ escapeString alt ++ "')") ∧
    (∀ (textContent : String) (attrs : List (String × String)) (idx : Nat),
      textContent ≠ "" → textContent.length < 100 →
      (generateSelector "div" "" textContent "" "" attrs idx).selector =
        "getByText('" ++ escapeString textContent ++ "')") ∧
    (∀ (attrs : List (String × String)) (idx : Nat) (t : String),
      attrGet attrs "data-testid" = some t → t ≠ "" →
      (generateSelector "div" "" "" "" "" attrs idx).selector =
        "getByTestId('" ++ t ++ "')") := by
  refine ⟨fun s => countUnescapedFrom_escape s.data none, ?_, ?_, ?_, ?_, ?_, ?_, ?_, ?_⟩
  · intro tag role tc al ph attrs idx hrole hor
    simp [generateSelector, hrole, hor]
  · intro tag tc al ph attrs idx htag hal
    simp [generateSelector, htag, hal]
  · intro tag tc ph attrs idx htag hph
    simp [generateSelector, htag, hph]
  · intro tc ph attrs idx htc
    simp [generateSelector, htc]
  · intro tc ph attrs idx htc
    simp [generateSelector, htc]
  · intro attrs idx alt halt hne
    simp [generateSelector, halt, hne]
  · intro tc attrs idx htc hlen
    have hpos : 0 < tc.length := by
      cases tc with
      | mk d =>
        cases d with
        | nil => exact absurd rfl htc
        | cons a t => simp [String.length]
    simp [generateSelector, htc, hlen, hpos]
  · intro attrs idx t ht hne
    simp [generateSelector, ht, hne, optTruthy]

/-- Claim C5 witness: the label branch applied to the concrete aria-label
a'b produces the escaped interpolation. -/
theorem generateSelector_escaping_witness :
    (generateSelector "input" "" "" "a'b" "" [] 0).selector =
      "getByLabel('" ++ escapeString "a'b" ++ "')" := by
  exact generateSelector_escaping.2.2.1 "input" "" "a'b" "" [] 0 (by decide) (by decide)

/-! ## Claim C1: uniquification — infrastructure.
Injectivity of the decimal rendering, and existence of a fresh suffix
within used.length + 1 attempts (pigeonhole). -/

def unparseDigits (l : List Nat) : Nat := l.foldl (fun a d => 10 * a + d) 0

theorem unparseDigits_append_one (xs : List Nat) (d : Nat) :
    unparseDigits (xs ++ [d]) = 10 * unparseDigits xs + d := by
  unfold unparseDigits
  rw [List.foldl_append]
  rfl

theorem unparse_natDigits : ∀ (fuel n : Nat), n < fuel →
    unparseDigits (natDigits fuel n) = n := by
  intro fuel
  induction fuel with
  | zero => intro n h; omega
  | succ f ih =>
    intro n h
    rw [natDigits]
    by_cases hn : n < 10
    · rw [if_pos hn]
      simp [unparseDigits]
    · rw [if_neg hn]
      rw [unparseDigits_append_one]
      have hdiv : n / 10 < f := by
        have h1 : n / 10 < n := Nat.div_lt_self (by omega) (by omega)
        omega
      rw [ih (n / 10) hdiv]
      omega

theorem natDigits_lt_ten : ∀ (fuel n : Nat), ∀ d ∈ natDigits fuel n, d < 10 := by
  intro fuel
  induction fuel with
  | zero => intro n d hd; cases hd
  | succ f ih =>
    intro n d hd
    rw [natDigits] at hd
    by_cases hn : n < 10
    · rw [if_pos hn] at hd
      rcases List.mem_singleton.1 hd with rfl
      exact hn
    · rw [if_neg hn] at hd
      rcases List.mem_append.1 hd with hd | hd
      · exact ih _ d hd
      · rcases List.mem_singleton.1 hd with rfl
        exact Nat.mod_lt _ (by omega)

theorem digitChar_inj :
    ∀ d₁, d₁ < 10 → ∀ d₂, d₂ < 10 → digitChar d₁ = digitChar d₂ → d₁ = d₂ := by
  decide

theorem map_digitChar_inj :
    ∀ (l₁ l₂ : List Nat), (∀ d ∈ l₁, d < 10) → (∀ d ∈ l₂, d < 10) →
      l₁.map digitChar = l₂.map digitChar → l₁ = l₂ := by
  intro l₁
  induction l₁ with
  | nil =>
    intro l₂ _ _ h
    cases l₂ with
    | nil => rfl
    | cons b t => cases h
  | cons a t ih =>
    intro l₂ h₁ h₂ h
    cases l₂ with
    | nil => cases h
    | cons b u =>
      simp only [List.map_cons, List.cons.injEq] at h
      have ha := digitChar_inj a (h₁ a (List.mem_cons_self a t)) b
        (h₂ b (List.mem_cons_self b u)) h.1
      subst ha
      rw [ih u (fun d hd => h₁ d (List.mem_cons_of_mem _ hd))
        (fun d hd => h₂ d (List.mem_cons_of_mem _ hd)) h.2]

theorem natRepr_inj : ∀ m n : Nat, natRepr m = natRepr n → m = n := by
  intro m n h
  have hd : (natDigits (m + 1) m).map digitChar = (natDigits (n + 1) n).map digitChar :=
    congrArg String.data h
  have hdig := map_digitChar_inj _ _ (natDigits_lt_ten (m + 1) m)
    (natDigits_lt_ten (n + 1) n) hd
  have hm := unparse_natDigits (m + 1) m (Nat.lt_succ_self m)
  have hn := unparse_natDigits (n + 1) n (Nat.lt_succ_self n)
  rw [← hm, ← hn, hdig]

theorem append_natRepr_inj (base : String) :
    ∀ m n : Nat, base ++ natRepr m = base ++ natRepr n → m = n := by
  intro m n h
  have hdata : (base ++ natRepr m).data = (base ++ natRepr n).data := congrArg _ h
  rw [String.data_append, String.data_append] at hdata
  have := List.append_cancel_left hdata
  exact natRepr_inj m n (String.ext this)

theorem exists_fresh_suffix (used : List String) (base : String) :
    ∃ j, j ≤ used.length ∧ (base ++ natRepr (1 + j)) ∉ used := by
  by_contra hcon
  push_neg at hcon
  have hmaps : ∀ j ∈ Finset.range (used.length + 1),
      (base ++ natRepr (1 + j)) ∈ used.toFinset := by
    intro j hj
    rw [List.mem_toFinset]
    exact hcon j (Nat.lt_succ_iff.1 (Finset.mem_range.1 hj))
  have hinj : Set.InjOn (fun j => base ++ natRepr (1 + j))
      ↑(Finset.range (used.length + 1)) := by
    intro a _ b _ hab
    have := append_natRepr_inj base (1 + a) (1 + b) hab
    omega
  have hcard := Finset.card_le_card_of_injOn _ hmaps hinj
  rw [Finset.card_range] at hcard
  have := List.toFinset_card_le used
  omega

theorem findFreshGo_spec (used : List String) (base : String) :
    ∀ (fuel k : Nat), (∃ j, j < fuel ∧ (base ++ natRepr (k + j)) ∉ used) →
    ∃ j, j < fuel ∧ findFreshGo used base fuel k = base ++ natRepr (k + j) ∧
      (base ++ natRepr (k + j)) ∉ used ∧
      ∀ i, i < j → (base ++ natRepr (k + i)) ∈ used := by
  intro fuel
  induction fuel with
  | zero =>
    rintro k ⟨j, hj, -⟩
    omega
  | succ f ih =>
    rintro k ⟨j, hj, hfresh⟩
    rw [findFreshGo]
    by_cases hmem : (base ++ natRepr k) ∈ used
    · rw [if_pos hmem]
      have hj0 : j ≠ 0 := by
        rintro rfl
        rw [Nat.add_zero] at hfresh
        exact hfresh hmem
      have hex : ∃ j', j' < f ∧ (base ++ natRepr ((k + 1) + j')) ∉ used := by
        refine ⟨j - 1, by omega, ?_⟩
        have harg : (k + 1) + (j - 1) = k + j := by omega
        rw [harg]
        exact hfresh
      rcases ih (k + 1) hex with ⟨j', hj', heq, hfr, hmin⟩
      have harg : k + (j' + 1) = (k + 1) + j' := by omega
      refine ⟨j' + 1, by omega, ?_, ?_, ?_⟩
      · rw [harg]; exact heq
      · rw [harg]; exact hfr
      · intro i hi
        cases i with
        | zero => rw [Nat.add_zero]; exact hmem
        | succ i' =>
          have harg2 : k + (i' + 1) = (k + 1) + i' := by omega
          rw [harg2]
          exact hmin i' (by omega)
    · rw [if_neg hmem]
      refine ⟨0, by omega, by rw [Nat.add_zero], ?_, ?_⟩
      · rw [Nat.add_zero]; exact hmem
      · intro i hi; omega

theorem nextUniqueName_spec (used : List String) (base : String) :
    (nextUniqueName used base ∉ used) ∧
    (base ∉ used → nextUniqueName used base = base) ∧
    (base ∈ used → ∃ m, 1 ≤ m ∧ nextUniqueName used base = base ++ natRepr m ∧
      (base ++ natRepr m) ∉ used ∧
      ∀ i, 1 ≤ i → i < m → (base ++ natRepr i) ∈ used) := by
  unfold nextUniqueName
  by_cases hb : base ∈ used
  · rw [if_pos hb]
    have hex : ∃ j, j < used.length + 1 ∧ (base ++ natRepr (1 + j)) ∉ used := by
      rcases exists_fresh_suffix used base with ⟨j, hj, hf⟩
      exact ⟨j, by omega, hf⟩
    rcases findFreshGo_spec used base (used.length + 1) 1 hex with ⟨j, hj, heq, hfr, hmin⟩
    refine ⟨?_, fun h => absurd hb h, fun _ => ⟨1 + j, by omega, heq, hfr, ?_⟩⟩
    · rw [heq]; exact hfr
    · intro i h1 hi
      have hstep := hmin (i - 1) (by omega)
      have harg : 1 + (i - 1) = i := by omega
      rw [harg] at hstep
      exact hstep
  · rw [if_neg hb]
    exact ⟨hb, fun _ => rfl, fun h => absurd h hb⟩

theorem uniquifyGo_length : ∀ (l : List AccessibleElement) (used : List String),
    (uniquifyGo used l).length = l.length := by
  intro l
  induction l with
  | nil => intro used; rfl
  | cons el rest ih =>
    intro used
    simp only [uniquifyGo, List.length_cons, ih]

theorem uniquifyGo_names_fresh_nodup : ∀ (l : List AccessibleElement) (used : List String),
    (∀ n ∈ (uniquifyGo used l).map (fun e => e.propertyName), n ∉ used) ∧
    ((uniquifyGo used l).map (fun e => e.propertyName)).Nodup := by
  intro l
  induction l with
  | nil => intro used; constructor <;> simp [uniquifyGo]
  | cons el rest ih =>
    intro used
    simp only [uniquifyGo, List.map_cons]
    rcases ih (nextUniqueName used el.propertyName :: used) with ⟨hfr, hnd⟩
    constructor
    · intro n hn
      rcases List.mem_cons.1 hn with rfl | hn
      · exact (nextUniqueName_spec used el.propertyName).1
      · intro hc
        exact (hfr n hn) (List.mem_cons_of_mem _ hc)
    · refine List.Nodup.cons ?_ hnd
      intro hc
      exact (hfr _ hc) (List.mem_cons_self _ _)

theorem uniquifyGo_getD_spec :
    ∀ (l : List AccessibleElement) (used : List String) (i : Nat), i < l.length →
      (((l.getD i (mkElem "")).propertyName ∉
          ((uniquifyGo used l).take i).map (fun e => e.propertyName) ∧
        (l.getD i (mkElem "")).propertyName ∉ used) →
        ((uniquifyGo used l).getD i (mkElem "")).propertyName =
          (l.getD i (mkElem "")).propertyName) ∧
      (((l.getD i (mkElem "")).propertyName ∈
          ((uniquifyGo used l).take i).map (fun e => e.propertyName) ∨
        (l.getD i (mkElem "")).propertyName ∈ used) →
        ∃ m, 1 ≤ m ∧
          ((uniquifyGo used l).getD i (mkElem "")).propertyName =
            (l.getD i (mkElem "")).propertyName ++ natRepr m ∧
          ((l.getD i (mkElem "")).propertyName ++ natRepr m) ∉
            ((uniquifyGo used l).take i).map (fun e => e.propertyName) ∧
          ((l.getD i (mkElem "")).propertyName ++ natRepr m) ∉ used ∧
          ∀ jj, 1 ≤ jj → jj < m →
            (((l.getD i (mkElem "")).propertyName ++ natRepr jj) ∈
              ((uniquifyGo used l).take i).map (fun e => e.propertyName) ∨
             ((l.getD i (mkElem "")).propertyName ++ natRepr jj) ∈ used)) := by
  intro l
  induction l with
  | nil =>
    intro used i hi
    exact absurd hi (by simp)
  | cons el rest ih =>
    intro used i hi
    cases i with
    | zero =>
      simp only [uniquifyGo, List.getD_cons_zero, List.take_zero, List.map_nil,
        List.not_mem_nil, not_false_eq_true, true_and, false_or]
      constructor
      · intro hnu
        exact (nextUniqueName_spec used el.propertyName).2.1 hnu
      · intro hmem
        rcases (nextUniqueName_spec used el.propertyName).2.2 hmem with ⟨m, h1, h2, h3, h4⟩
        refine ⟨m, h1, h2, h3, ?_⟩
        intro jj hj1 hj2
        exact h4 jj hj1 hj2
    | succ n =>
      have hn : n < rest.length := by
        simpa using hi
      simp only [uniquifyGo, List.getD_cons_succ, List.take_succ_cons, List.map_cons,
        List.mem_cons]
      rcases ih (nextUniqueName used el.propertyName :: used) n hn with ⟨ihA, ihB⟩
      constructor
      · rintro ⟨hna, hnu⟩
        apply ihA
        constructor
        · intro hc
          exact hna (Or.inr hc)
        · intro hc
          rcases List.mem_cons.1 hc with hc | hc
          · exact hna (Or.inl hc)
          · exact hnu hc
      · intro hmem
        have hmem' : (rest.getD n (mkElem "")).propertyName ∈
            ((uniquifyGo (nextUniqueName used el.propertyName :: used) rest).take n).map
              (fun e => e.propertyName) ∨
            (rest.getD n (mkElem "")).propertyName ∈
              (nextUniqueName used el.propertyName :: used) := by
          rcases hmem with (h | h) | h
          · exact Or.inr (by rw [h]; exact List.mem_cons_self _ _)
          · exact Or.inl h
          · exact Or.inr (List.mem_cons_of_mem _ h)
        rcases ihB hmem' with ⟨m, h1, h2, h3, h4, h5⟩
        refine ⟨m, h1, h2, ?_, ?_, ?_⟩
        · rintro (hc | hc)
          · exact h4 (by rw [hc]; exact List.mem_cons_self _ _)
          · exact h3 hc
        · intro hc
          exact h4 (List.mem_cons_of_mem _ hc)
        · intro jj hj1 hj2
          rcases h5 jj hj1 hj2 with h | h
          · exact Or.inl (Or.inr h)
          · rcases List.mem_cons.1 h with h | h
            · exact Or.inl (Or.inl h)
            · exact Or.inr h

/-- Claim C1 counterexample: on raw property names name, name, name1 the
third element is the FIRST to carry the raw name name1 (the two earlier
raw names are both name), yet it does not keep the bare form: the earlier
collision already assigned name1, so the third element becomes name11. -/
theorem uniquify_first_occurrence_not_bare :
    (uniquifyPropertyNames [mkElem "name", mkElem "name", mkElem "name1"]).map
        (fun e => e.propertyName) = ["name", "name1", "name11"] ∧
    ([mkElem "name", mkElem "name", mkElem "name1"].map
        (fun e => e.propertyName)).take 2 = ["name", "name"] ∧
    ("name11" : String) ≠ "name1" := by
  decide

/-- Claim C1 as amended: uniquifyPropertyNames preserves length and order
and returns pairwise-distinct property names (hence
extractAccessibleElements, which ends by uniquifying, never returns two
elements with equal propertyName).  An element whose raw name has not
already been ASSIGNED to an earlier output element keeps the bare form;
a colliding element receives the raw name with the smallest positive
integer suffix not already assigned.  The first element carrying a given
raw name keeps the bare form only when no earlier suffixed assignment
already equals that raw name. -/
theorem uniquifyPropertyNames_spec :
    ∀ l : List AccessibleElement,
      (uniquifyPropertyNames l).length = l.length ∧
      ((uniquifyPropertyNames l).map (fun e => e.propertyName)).Nodup ∧
      ∀ i, i < l.length →
        (((l.getD i (mkElem "")).propertyName ∉
            ((uniquifyPropertyNames l).take i).map (fun e => e.propertyName)) →
          ((uniquifyPropertyNames l).getD i (mkElem "")).propertyName =
            (l.getD i (mkElem "")).propertyName) ∧
        (((l.getD i (mkElem "")).propertyName ∈
            ((uniquifyPropertyNames l).take i).map (fun e => e.propertyName)) →
          ∃ m, 1 ≤ m ∧
            ((uniquifyPropertyNames l).getD i (mkElem "")).propertyName =
              (l.getD i (mkElem "")).propertyName ++ natRepr m ∧
            ((l.getD i (mkElem "")).propertyName ++ natRepr m) ∉
              ((uniquifyPropertyNames l).take i).map (fun e => e.propertyName) ∧
            ∀ jj, 1 ≤ jj → jj < m →
              ((l.getD i (mkElem "")).propertyName ++ natRepr jj) ∈
                ((uniquifyPropertyNames l).take i).map (fun e => e.propertyName)) := by
  intro l
  refine ⟨uniquifyGo_length l [], (uniquifyGo_names_fresh_nodup l []).2, ?_⟩
  intro i hi
  rcases uniquifyGo_getD_spec l [] i hi with ⟨hA, hB⟩
  constructor
  · intro hna
    exact hA ⟨hna, List.not_mem_nil _⟩
  · intro hmem
    rcases hB (Or.inl hmem) with ⟨m, h1, h2, h3, h4, h5⟩
    refine ⟨m, h1, h2, h3, ?_⟩
    intro jj hj1 hj2
    rcases h5 jj hj1 hj2 with h | h
    · exact h
    · exact absurd h (List.not_mem_nil _)

/-- Claim C1 witness: at the concrete two-element input with equal raw
names, index 0 has no earlier assignment, so the theorem yields the bare
form there. -/
theorem uniquifyPropertyNames_spec_witness :
    (0 < ([mkElem "name", mkElem "name"] : List AccessibleElement).length) ∧
    ((uniquifyPropertyNames [mkElem "name", mkElem "name"]).getD 0 (mkElem "")).propertyName =
      (([mkElem "name", mkElem "name"] : List AccessibleElement).getD 0
        (mkElem "")).propertyName := by
  refine ⟨by decide, ?_⟩
  exact ((uniquifyPropertyNames_spec [mkElem "name", mkElem "name"]).2.2 0
    (by decide)).1 (by decide)
